import Mathlib

/-!
Verification development for the Cities API (`src/main.py`): a read-only
HTTP endpoint querying an in-memory city dataset with fuzzy name search,
timezone and population filters, sorting, pagination, request validation
and rate limiting.  The Python source is shallowly embedded below; the
external libraries it calls (rapidfuzz scoring, slowapi limiting, Python
builtins `float`/`int`, list slicing and `sorted`) are embedded from their
documented semantics as used by the source.
-/

/-! ## Fuzzy matcher (rapidfuzz `fuzz.partial_ratio` on lower-cased input) -/

/-- Embedding of Python `str.lower()` restricted to the ASCII range used by
the matcher: an upper-case ASCII letter is shifted down by 32, any other
character is unchanged. -/
def lowerChar (c : Char) : Char :=
  if 65 ≤ c.toNat ∧ c.toNat ≤ 90 then Char.ofNat (c.toNat + 32) else c

/-- `s.lower()` as a list of characters. -/
def lowerStr (s : String) : List Char := s.data.map lowerChar

/-- Length of a longest common subsequence of two character lists; the
basis of the Indel (insertion/deletion) distance used by rapidfuzz.  The
usual recurrence — `lcs (a :: as) (b :: bs)` is `lcs as bs + 1` when
`a = b` and otherwise `max (lcs (a :: as) bs) (lcs as (b :: bs))` — is
phrased as a nested structural recursion (outer on the first list, inner
on the second) so that it reduces definitionally. -/
def lcs : List Char → List Char → Nat
  | [] => fun _ => 0
  | a :: as =>
    let f := lcs as
    let rec go : List Char → Nat
      | [] => 0
      | b :: bs => if a = b then f bs + 1 else max (go bs) (f (b :: bs))
    go

/-- Modelled from the spec: rapidfuzz `fuzz.ratio` (external dependency,
not in src/): the Indel-distance similarity of two strings normalized to
0–100, i.e. `100 * (1 - dist/(|a|+|b|))` with `dist = |a|+|b| - 2*lcs`;
two empty strings have ratio 100. -/
def fuzzRatio (a b : List Char) : ℚ :=
  if a.length + b.length = 0 then 100
  else mkRat (200 * lcs a b) (a.length + b.length)

/-- All contiguous windows of length `n` of `l` (for `n ≤ l.length`). -/
def windows (n : Nat) (l : List Char) : List (List Char) :=
  (List.range (l.length - n + 1)).map (fun i => (l.drop i).take n)

/-- Modelled from the spec: rapidfuzz `fuzz.partial_ratio` (external
dependency, not in src/): the best `fuzzRatio` of the shorter string
against the equal-length windows of the longer string. -/
def fuzzPartRatio (a b : List Char) : ℚ :=
  let s := if a.length ≤ b.length then a else b
  let t := if a.length ≤ b.length then b else a
  ((windows s.length t).map (fun w => fuzzRatio s w)).foldr max 0

/-- The fuzzy match test of `get_cities` (src/main.py lines 139–143):
`fuzz.partial_ratio(q.lower(), name.lower()) >= 70`. -/
def fuzzMatches (q name : String) : Bool :=
  decide (70 ≤ fuzzPartRatio (lowerStr q) (lowerStr name))

/-! ## Data model -/

/-- One city record, as produced by `load_cities` (the Python dict with
keys name/lat/lng/tz/pop/loc); `lat`/`lng` are embedded as exact
rationals. -/
structure City where
  name : String
  lat : ℚ
  lng : ℚ
  tz : String
  pop : Int
  loc : String
deriving DecidableEq, Repr

/-- The CityRecord field names accepted as a sort key (`c.get(sort)` in the
source); an unrecognized key yields `None` values whose comparison Python
leaves undefined, so it is outside the embedded surface. -/
inductive SortKey where
  | name
  | lat
  | lng
  | tz
  | pop
  | loc
deriving DecidableEq, Repr

/-- Ascending comparison on the value of the given field, as Python's
`sorted` compares the values returned by the key function. -/
def keyLe (k : SortKey) (a b : City) : Bool :=
  match k with
  | .name => decide (a.name ≤ b.name)
  | .lat => decide (a.lat ≤ b.lat)
  | .lng => decide (a.lng ≤ b.lng)
  | .tz => decide (a.tz ≤ b.tz)
  | .pop => decide (a.pop ≤ b.pop)
  | .loc => decide (a.loc ≤ b.loc)

/-- Embedding of Python `sorted(data, key=..., reverse=rev)`: a stable sort
(CPython's Timsort is stable, and `reverse=True` keeps equal-key elements
in input order), realized as a stable insertion sort whose comparison is
the field comparison, flipped when `rev` is true. -/
def pySortedBy (k : SortKey) (rev : Bool) (l : List City) : List City :=
  if rev then l.insertionSort (fun a b => keyLe k b a = true)
  else l.insertionSort (fun a b => keyLe k a b = true)

/-! ## Pagination (Python list slicing) -/

/-- Normalization of one slice endpoint by Python semantics: a negative
index counts from the end (clamped to 0), a non-negative one is clamped to
the length. -/
def sliceIdx (len : Nat) (i : Int) : Nat :=
  if i < 0 then ((len : Int) + i).toNat else min i.toNat len

/-- Embedding of Python `xs[o : o + l]` (src/main.py line 152): both
endpoints are normalized by `sliceIdx` and the elements in between are
returned; this never raises. -/
def pySlice {α : Type} (o l : Int) (xs : List α) : List α :=
  let s := sliceIdx xs.length o
  let e := sliceIdx xs.length (o + l)
  (xs.drop s).take (e - s)

/-! ## Query pipeline (`get_cities`, src/main.py lines 139–153) -/

/-- `if q:` — the fuzzy name filter, skipped when `q` is `None` or the
empty string (both falsy in Python). -/
def applyQ (q : Option String) (data : List City) : List City :=
  match q with
  | none => data
  | some s => if s = "" then data else data.filter (fun c => fuzzMatches s c.name)

/-- `if tz:` — exact timezone filter, skipped when `tz` is `None` or empty. -/
def applyTz (tz : Option String) (data : List City) : List City :=
  match tz with
  | none => data
  | some t => if t = "" then data else data.filter (fun c => decide (c.tz = t))

/-- `if min_pop is not None:` — minimum population filter (also applied
when `min_pop` is 0). -/
def applyMinPop (m : Option Int) (data : List City) : List City :=
  match m with
  | none => data
  | some mp => data.filter (fun c => decide (mp ≤ c.pop))

/-- `if sort:` — stable sort by the requested field; descending exactly
when `order == "desc"`. -/
def applySort (k : Option SortKey) (order : String) (data : List City) : List City :=
  match k with
  | none => data
  | some key => pySortedBy key (decide (order = "desc")) data

/-- `data[offset : offset + limit]`. -/
def applyPage (offset limit : Int) (data : List City) : List City :=
  pySlice offset limit data

/-- The query parameters of one `GET /cities` request (FilterCriteria);
`sort` is restricted to recognized field names (see `SortKey`). -/
structure Req where
  q : Option String
  tz : Option String
  min_pop : Option Int
  limit : Int
  offset : Int
  sort : Option SortKey
  order : String
deriving Repr

/-- The filter → sort → paginate pipeline of `get_cities`, in source
order. -/
def queryPipeline (req : Req) (data : List City) : List City :=
  applyPage req.offset req.limit
    (applySort req.sort req.order
      (applyMinPop req.min_pop
        (applyTz req.tz
          (applyQ req.q data))))

/-! ## Dataset loader (`load_cities`, src/main.py lines 59–73)

The file has already been split by the tab-delimited csv reader, so the
loader consumes a list of rows, each a list of string fields. -/

/-- Value of a non-empty all-digit character list. -/
def digitsToNat (l : List Char) : Nat :=
  l.foldl (fun n c => n * 10 + (c.toNat - 48)) 0

/-- A non-empty run of ASCII digits, else failure. -/
def parseNatDigits (l : List Char) : Option Nat :=
  if !l.isEmpty && l.all Char.isDigit then some (digitsToNat l) else none

/-- Embedding of Python `int(s)` on the decimal integers appearing in the
dataset: an optional sign followed by digits; anything else raises
`ValueError` in Python, here `none`. -/
def pyInt (s : String) : Option Int :=
  match s.data with
  | '-' :: rest => (parseNatDigits rest).map (fun n => -(n : Int))
  | '+' :: rest => (parseNatDigits rest).map (fun n => (n : Int))
  | l => (parseNatDigits l).map (fun n => (n : Int))

/-- The mantissa of a Python float literal: digits with an optional
decimal point, at least one digit overall (`"1."`, `".5"`, `"1.5"`,
`"15"`), returned as an exact numerator/denominator pair
(`"1.5"` becomes `(15, 10)`). -/
def parseMantissa (l : List Char) : Option (Nat × Nat) :=
  match l.splitOn '.' with
  | [ip] => (parseNatDigits ip).map (fun n => (n, 1))
  | [ip, fp] =>
    if ip.isEmpty && fp.isEmpty then none
    else if ip.all Char.isDigit && fp.all Char.isDigit then
      some (digitsToNat ip * 10 ^ fp.length + digitsToNat fp, 10 ^ fp.length)
    else none
  | _ => none

/-- The exponent of a Python float literal: an optional sign and digits. -/
def parseExp (l : List Char) : Option Int :=
  match l with
  | '-' :: rest => (parseNatDigits rest).map (fun n => -(n : Int))
  | '+' :: rest => (parseNatDigits rest).map (fun n => (n : Int))
  | _ => (parseNatDigits l).map (fun n => (n : Int))

/-- Embedding of Python `float(s)` on finite decimal literals (optional
sign, mantissa, optional exponent), yielding the exact rational value
`±(num/den) * 10^e` assembled as a single normalized fraction; the
special forms (`inf`, `nan`, surrounding whitespace) never occur in the
dataset and are not modelled. A malformed field raises `ValueError` in
Python, here `none`. -/
def pyFloat (s : String) : Option ℚ :=
  let l := s.data.map (fun c => if c = 'E' then 'e' else c)
  let sc : Bool × List Char :=
    match l with
    | '-' :: r => (true, r)
    | '+' :: r => (false, r)
    | r => (false, r)
  let sgn : Int → Int := fun n => if sc.1 then -n else n
  match sc.2.splitOn 'e' with
  | [m] => (parseMantissa m).map (fun nd => mkRat (sgn nd.1) nd.2)
  | [m, ex] =>
    match parseMantissa m, parseExp ex with
    | some nd, some e => some (mkRat (sgn (nd.1 * 10 ^ e.toNat)) (nd.2 * 10 ^ (-e).toNat))
    | _, _ => none
  | _ => none

/-- A failure raised while parsing one dataset row.  In Python the two
numeric conversions raise `ValueError` naming the malformed literal (the
exception occurring while that row is being processed), and an index into
a too-short row raises `IndexError`; the error value records the offending
row and, for the numeric cases, the malformed field. -/
inductive ParseError where
  | rowTooShort (row : List String)
  | badFloat (row : List String) (field : String)
  | badInt (row : List String) (field : String)
deriving DecidableEq, Repr

/-- The body of the `load_cities` loop for one row: `name = row[1]`,
`lat = float(row[4])`, `lng = float(row[5])`, `tz = row[-2]`,
`pop = int(row[14]) if row[14] else 0`, `loc = row[8]`, in source order
(so a malformed `lat` is reported before a malformed `lng`). -/
def parseRow (row : List String) : Except ParseError City :=
  if row.length < 15 then .error (.rowTooShort row)
  else
    match pyFloat (row.getD 4 "") with
    | none => .error (.badFloat row (row.getD 4 ""))
    | some la =>
      match pyFloat (row.getD 5 "") with
      | none => .error (.badFloat row (row.getD 5 ""))
      | some ln =>
        match (if row.getD 14 "" = "" then some 0 else pyInt (row.getD 14 "")) with
        | none => .error (.badInt row (row.getD 14 ""))
        | some p =>
          .ok ⟨row.getD 1 "", la, ln, row.getD (row.length - 2) "", p, row.getD 8 ""⟩

/-- `load_cities`: parse every row in order, stopping at the first
failure; on success the records appear in file order. -/
def loadCities (rows : List (List String)) : Except ParseError (List City) :=
  rows.mapM parseRow

/-! ## Request handler (`get_cities` validation and dispatch) -/

/-- Python truthiness of an optional string parameter (`None` and `""`
are falsy). -/
def optTruthy : Option String → Bool
  | none => false
  | some s => !s.isEmpty

/-- The validation gate of `get_cities` (src/main.py line 131):
`not (not q and not tz and min_pop is None)`. -/
def hasFilter (req : Req) : Bool :=
  optTruthy req.q || optTruthy req.tz || req.min_pop.isSome

/-- Outcome of processing one request. -/
inductive ServeResult where
  | badRequest (status : Nat) (detail : String)
  | loadFailure (e : ParseError)
  | rateLimited (status : Nat) (body : String)
  | page (cities : List City)
deriving DecidableEq, Repr

/-- The `get_cities` handler body: reject with HTTP 400 when no filter is
supplied, otherwise load the dataset and run the pipeline; a load failure
propagates as the request's outcome. -/
def getCities (rows : List (List String)) (req : Req) : ServeResult :=
  if hasFilter req then
    match loadCities rows with
    | .error e => .loadFailure e
    | .ok data => .page (queryPipeline req data)
  else .badRequest 400 "Please provide at least one filter: q, tz, or min_pop"

/-! ## Rate limiter (`@limiter.limit("10/minute")`, src/main.py lines 38,
56, 92) -/

/-- Modelled from the spec: the slowapi/limits window state (the library
is an external dependency, not in src/).  Per client key, the timestamps
(in seconds) of the requests admitted within the active window. -/
def RLState : Type := String → List Int

/-- Modelled from the spec: one admission check of the `"10/minute"`
rolling-window policy at time `t`.  Timestamps older than 60 seconds are
expired; the check is admitted exactly when fewer than 10 admitted
requests remain in the window, and only admitted requests are recorded. -/
def rlCheck (st : RLState) (key : String) (t : Int) : Bool × RLState :=
  let recent := (st key).filter (fun u => decide (t - u < 60))
  if recent.length < 10 then
    (true, fun k => if k = key then recent ++ [t] else st k)
  else
    (false, fun k => if k = key then recent else st k)

/-- A sequence of admission checks, threading the limiter state. -/
def rlCheckRun (st : RLState) : List (String × Int) → List Bool × RLState
  | [] => ([], st)
  | p :: rest =>
    let r := rlCheck st p.1 p.2
    let rr := rlCheckRun r.2 rest
    (r.1 :: rr.1, rr.2)

/-- One request as served by the app: the rate-limit admission check runs
first, and a rejected check is surfaced by the registered exception
handler as status 429 with body `"Too Many Requests"` (src/main.py line
56); an admitted check runs `get_cities`. -/
def serve (st : RLState) (key : String) (t : Int) (rows : List (List String))
    (req : Req) : ServeResult × RLState :=
  let r := rlCheck st key t
  if r.1 then (getCities rows req, r.2)
  else (.rateLimited 429 "Too Many Requests", r.2)

/-! ## Concrete sample data (the spec's London / New York scenario) -/

/-- London, as in the source's schema example. -/
def london : City :=
  ⟨"London", mkRat 5150853 100000, mkRat (-12574) 100000, "Europe/London", 7556900, "GB"⟩

/-- New York, as in the spec's scenario table. -/
def newYork : City :=
  ⟨"New York", mkRat 4071427 100000, mkRat (-740060 : Int) 10000, "America/New_York", 8175133, "US"⟩

/-- A GeoNames-style tab-separated row for London (19 columns). -/
def londonRow : List String :=
  ["2643743", "London", "London", "", "51.50853", "-0.12574", "P", "PPLC", "GB", "",
   "ENG", "", "", "", "7556900", "", "25", "Europe/London", "2011-03-03"]

/-! ## Helper lemmas -/

/-- Any member of a list of rationals is bounded by the fold of `max`
over it (with base 0). -/
theorem le_foldr_max_rat {x : ℚ} : ∀ {l : List ℚ}, x ∈ l → x ≤ l.foldr max 0 := by
  intro l hx
  induction l with
  | nil => cases hx
  | cons a l ih =>
    rcases List.mem_cons.mp hx with h | h
    · subst h
      exact le_max_left _ _
    · exact le_trans (ih h) (le_max_right _ _)

/-- The empty query scores 100 against every candidate (its unique
length-0 window comparison is `fuzzRatio [] [] = 100`), so the 70
threshold always passes. -/
theorem fuzzPartRatio_nil (l : List Char) : (70 : ℚ) ≤ fuzzPartRatio [] l := by
  have hw : ([] : List Char) ∈ windows 0 l := by
    unfold windows
    exact List.mem_map.mpr ⟨0, by simp, by simp⟩
  have hmem : (100 : ℚ) ∈ (windows 0 l).map (fun w => fuzzRatio [] w) :=
    List.mem_map.mpr ⟨[], hw, by simp [fuzzRatio]⟩
  have h100 : (100 : ℚ) ≤ fuzzPartRatio [] l := by
    unfold fuzzPartRatio
    simpa using le_foldr_max_rat hmem
  linarith

/-- Each filter of the pipeline only discards records. -/
theorem applyQ_subset (q : Option String) (data : List City) :
    applyQ q data ⊆ data := by
  cases q with
  | none => exact fun a h => h
  | some s =>
    unfold applyQ
    by_cases hs : s = ""
    · simp [hs]
    · simp only [hs, if_false]
      exact (List.filter_sublist _).subset

theorem applyTz_subset (tz : Option String) (data : List City) :
    applyTz tz data ⊆ data := by
  cases tz with
  | none => exact fun a h => h
  | some t =>
    unfold applyTz
    by_cases ht : t = ""
    · simp [ht]
    · simp only [ht, if_false]
      exact (List.filter_sublist _).subset

theorem applyMinPop_subset (m : Option Int) (data : List City) :
    applyMinPop m data ⊆ data := by
  cases m with
  | none => exact fun a h => h
  | some mp => exact (List.filter_sublist _).subset

/-- A record that passed a filter in one base list passes it in any other
base list containing the record: the predicate does not depend on the
list. -/
theorem mem_applyQ_of {q : Option String} {c : City} {data data' : List City}
    (h : c ∈ applyQ q data) (h' : c ∈ data') : c ∈ applyQ q data' := by
  cases q with
  | none => exact h'
  | some s =>
    unfold applyQ at h ⊢
    by_cases hs : s = ""
    · simpa [hs] using h'
    · simp only [hs, if_false] at h ⊢
      exact List.mem_filter.mpr ⟨h', (List.mem_filter.mp h).2⟩

theorem mem_applyTz_of {tz : Option String} {c : City} {data data' : List City}
    (h : c ∈ applyTz tz data) (h' : c ∈ data') : c ∈ applyTz tz data' := by
  cases tz with
  | none => exact h'
  | some t =>
    unfold applyTz at h ⊢
    by_cases ht : t = ""
    · simpa [ht] using h'
    · simp only [ht, if_false] at h ⊢
      exact List.mem_filter.mpr ⟨h', (List.mem_filter.mp h).2⟩

theorem mem_applyMinPop_of {m : Option Int} {c : City} {data data' : List City}
    (h : c ∈ applyMinPop m data) (h' : c ∈ data') : c ∈ applyMinPop m data' := by
  cases m with
  | none => exact h'
  | some mp => exact List.mem_filter.mpr ⟨h', (List.mem_filter.mp h).2⟩

/-! ## C1 -/

/-- C1: the fuzzy name filter keeps a record exactly when the partial
ratio of the lower-cased query against the lower-cased record name is at
least 70; and the match test depends only on the lower-casings of its two
arguments, so it gives the same answer for any casing of its inputs. -/
theorem c1_fuzzy_filter_threshold_and_case_insensitive :
    (∀ (q : String) (c : City) (data : List City),
      c ∈ applyQ (some q) data ↔
        c ∈ data ∧ 70 ≤ fuzzPartRatio (lowerStr q) (lowerStr c.name)) ∧
    (∀ q q' n n' : String, lowerStr q' = lowerStr q → lowerStr n' = lowerStr n →
      fuzzMatches q' n' = fuzzMatches q n) := by
  constructor
  · intro q c data
    by_cases hq : q = ""
    · subst hq
      show c ∈ data ↔ _
      have h70 : (70 : ℚ) ≤ fuzzPartRatio (lowerStr "") (lowerStr c.name) :=
        fuzzPartRatio_nil (lowerStr c.name)
      exact ⟨fun h => ⟨h, h70⟩, fun h => h.1⟩
    · unfold applyQ
      simp only [hq, if_false]
      rw [List.mem_filter]
      unfold fuzzMatches
      simp [decide_eq_true_iff]
  · intro q q' n n' hq hn
    unfold fuzzMatches
    rw [hq, hn]

/-- Witness for C1 at the spec's own example: the score of "Lond" against
London clears the threshold, and matching "YORK" against "New York" agrees
with matching "york" against "new york". -/
theorem c1_witness :
    (london ∈ applyQ (some "Lond") [london] ↔
      london ∈ [london] ∧ 70 ≤ fuzzPartRatio (lowerStr "Lond") (lowerStr london.name)) ∧
    fuzzMatches "YORK" "New York" = fuzzMatches "york" "new york" :=
  ⟨c1_fuzzy_filter_threshold_and_case_insensitive.1 "Lond" london [london],
   c1_fuzzy_filter_threshold_and_case_insensitive.2 "york" "YORK" "new york" "New York"
     (by decide) (by decide)⟩

/-! ## C8 -/

/-- C8: the result of applying the three filters together is a subset of
the result of applying any single one of them alone to the same
dataset. -/
theorem c8_combined_filters_subset_each (q tz : Option String) (mp : Option Int)
    (data : List City) :
    applyMinPop mp (applyTz tz (applyQ q data)) ⊆ applyQ q data ∧
    applyMinPop mp (applyTz tz (applyQ q data)) ⊆ applyTz tz data ∧
    applyMinPop mp (applyTz tz (applyQ q data)) ⊆ applyMinPop mp data := by
  refine ⟨?_, ?_, ?_⟩
  · intro c hc
    exact applyTz_subset tz _ (applyMinPop_subset mp _ hc)
  · intro c hc
    have h1 : c ∈ applyTz tz (applyQ q data) := applyMinPop_subset mp _ hc
    have h2 : c ∈ data := applyQ_subset q data (applyTz_subset tz _ h1)
    exact mem_applyTz_of h1 h2
  · intro c hc
    have h2 : c ∈ data :=
      applyQ_subset q data (applyTz_subset tz _ (applyMinPop_subset mp _ hc))
    exact mem_applyMinPop_of hc h2

/-- Witness for C8: on the two-city dataset with all three filters
supplied, London survives the combined filtering, hence each single
filter alone also keeps it. -/
theorem c8_witness :
    london ∈ applyQ (some "Lond") [london, newYork] ∧
    london ∈ applyTz (some "Europe/London") [london, newYork] ∧
    london ∈ applyMinPop (some 1000000) [london, newYork] :=
  ⟨(c8_combined_filters_subset_each (some "Lond") (some "Europe/London") (some 1000000)
      [london, newYork]).1 (by decide),
   (c8_combined_filters_subset_each (some "Lond") (some "Europe/London") (some 1000000)
      [london, newYork]).2.1 (by decide),
   (c8_combined_filters_subset_each (some "Lond") (some "Europe/London") (some 1000000)
      [london, newYork]).2.2 (by decide)⟩

/-! ## C10 -/

/-- C10: an empty-string `q` is treated exactly as an absent `q` — the
fuzzy filter is not applied (the working set is returned unchanged, no
record is scored), and a request supplying only `q = ""` is rejected with
the 400 validation error. -/
theorem c10_empty_q_treated_as_absent :
    (∀ data : List City,
      applyQ (some "") data = data ∧ applyQ (some "") data = applyQ none data) ∧
    (∀ (rows : List (List String)) (lim off : Int) (sk : Option SortKey) (ord : String),
      getCities rows ⟨some "", none, none, lim, off, sk, ord⟩ =
        .badRequest 400 "Please provide at least one filter: q, tz, or min_pop") := by
  constructor
  · intro data
    exact ⟨rfl, rfl⟩
  · intro rows lim off sk ord
    rfl

/-- Witness for C10 on the two-city dataset. -/
theorem c10_witness :
    applyQ (some "") [london, newYork] = [london, newYork] ∧
    getCities [londonRow] ⟨some "", none, none, 50, 0, none, "asc"⟩ =
      .badRequest 400 "Please provide at least one filter: q, tz, or min_pop" :=
  ⟨(c10_empty_q_treated_as_absent.1 [london, newYork]).1,
   c10_empty_q_treated_as_absent.2 [londonRow] 50 0 none "asc"⟩

/-! ## C4 -/

/-- C4 counterexample: a request that supplies `q` (as the empty string)
and nothing else is rejected with the 400 validation error, so supplying
one of the three parameters does not always make the handler proceed to a
page. -/
theorem c4_counterexample :
    (Req.mk (some "") none none 50 0 none "asc").q.isSome = true ∧
    getCities [londonRow] (Req.mk (some "") none none 50 0 none "asc") =
      .badRequest 400 "Please provide at least one filter: q, tz, or min_pop" :=
  ⟨rfl, rfl⟩

/-- C4 (amended): when none of `q`, `tz`, `min_pop` carries a truthy
value (`q`/`tz` non-empty, `min_pop` present), the handler answers the
400 validation error without looking at the dataset — the same outcome
for every dataset; when at least one carries a truthy value it proceeds:
whenever the load succeeds the handler returns the computed page. -/
theorem c4_validation_gate (req : Req) :
    (hasFilter req = false →
      ∀ rows : List (List String),
        getCities rows req =
          .badRequest 400 "Please provide at least one filter: q, tz, or min_pop") ∧
    (hasFilter req = true →
      ∀ (rows : List (List String)) (data : List City),
        loadCities rows = .ok data →
        getCities rows req = .page (queryPipeline req data)) := by
  constructor
  · intro h rows
    unfold getCities
    rw [h]
    rfl
  · intro h rows data hload
    unfold getCities
    rw [h, hload]
    rfl

/-- Witness for C4: a request with no truthy filter gets the 400 answer on
the concrete dataset, and a request filtering by timezone gets its page. -/
theorem c4_witness :
    getCities [londonRow] (Req.mk none (some "") none 50 0 none "asc") =
      .badRequest 400 "Please provide at least one filter: q, tz, or min_pop" ∧
    getCities [londonRow] (Req.mk none (some "Europe/London") none 50 0 none "asc") =
      .page (queryPipeline (Req.mk none (some "Europe/London") none 50 0 none "asc")
        [london]) :=
  ⟨(c4_validation_gate (Req.mk none (some "") none 50 0 none "asc")).1 rfl [londonRow],
   (c4_validation_gate (Req.mk none (some "Europe/London") none 50 0 none "asc")).2 rfl
     [londonRow] [london] (by rfl)⟩

/-! ## Pagination lemmas (C3, C5) -/

/-- Clamped take-drop normal form: dropping at a clamped start index and
taking up to a clamped end index is plain drop-then-take. -/
theorem drop_take_clamp {α : Type} (m n : Nat) (xs : List α) :
    (xs.drop (min m xs.length)).take (min (m + n) xs.length - min m xs.length) =
    (xs.drop m).take n := by
  rcases Nat.le_total m xs.length with h | h
  · rw [Nat.min_eq_left h]
    have h2 : min (m + n) xs.length - m = min n (xs.length - m) := by omega
    rw [h2]
    have h3 : xs.length - m = (xs.drop m).length := (List.length_drop m xs).symm
    rw [h3, ← List.take_take, List.take_length]
  · rw [Nat.min_eq_right h, List.drop_length, List.drop_eq_nil_of_le h]
    simp

/-- For non-negative offset and limit the Python slice `xs[o : o + l]` is
exactly "drop `o`, take `l`". -/
theorem pySlice_of_nonneg {α : Type} (o l : Int) (xs : List α)
    (ho : 0 ≤ o) (hl : 0 ≤ l) :
    pySlice o l xs = (xs.drop o.toNat).take l.toNat := by
  unfold pySlice sliceIdx
  rw [if_neg (by omega), if_neg (by omega), Int.toNat_add ho hl]
  exact drop_take_clamp o.toNat l.toNat xs

/-- Concatenating the length-`L` chunks at offsets `0, L, ..., (n-1)*L`
reproduces the first `n*L` elements. -/
theorem flatten_chunks {α : Type} (L : Nat) :
    ∀ (n : Nat) (d : List α),
      ((List.range n).map (fun k => (d.drop (k * L)).take L)).flatten = d.take (n * L) := by
  intro n
  induction n with
  | zero => intro d; simp
  | succ n ih =>
    intro d
    rw [List.range_succ, List.map_append, List.flatten_append]
    simp only [List.map_cons, List.map_nil, List.flatten_cons, List.flatten_nil,
      List.append_nil]
    rw [ih d, Nat.succ_mul, List.take_add]

/-! ## C3 -/

/-- C3: pagination is Python slicing of the working list — it is total
(the page is always a contiguous piece of the list, so out-of-range
values yield an empty or partial page and never an error), and for
non-negative offset and limit it is exactly the clamped window
`[offset, offset + limit)`. -/
theorem c3_pagination_is_python_slice :
    (∀ (o l : Int) (data : List City), 0 ≤ o → 0 ≤ l →
      applyPage o l data = (data.drop o.toNat).take l.toNat) ∧
    (∀ (o l : Int) (data : List City),
      ∃ pre post : List City, pre ++ applyPage o l data ++ post = data) := by
  constructor
  · intro o l data ho hl
    exact pySlice_of_nonneg o l data ho hl
  · intro o l data
    refine ⟨data.take (sliceIdx data.length o),
      (data.drop (sliceIdx data.length o)).drop
        (sliceIdx data.length (o + l) - sliceIdx data.length o), ?_⟩
    show data.take (sliceIdx data.length o) ++
        (data.drop (sliceIdx data.length o)).take
          (sliceIdx data.length (o + l) - sliceIdx data.length o) ++
        (data.drop (sliceIdx data.length o)).drop
          (sliceIdx data.length (o + l) - sliceIdx data.length o) = data
    rw [List.append_assoc, List.take_append_drop, List.take_append_drop]

/-- Witness for C3: a concrete in-range page and a concrete negative
offset both behave as stated. -/
theorem c3_witness :
    applyPage 1 2 [london, newYork] =
      (([london, newYork].drop (1 : Int).toNat).take (2 : Int).toNat) ∧
    ∃ pre post : List City, pre ++ applyPage (-1) 5 [london] ++ post = [london] :=
  ⟨c3_pagination_is_python_slice.1 1 2 [london, newYork] (by decide) (by decide),
   c3_pagination_is_python_slice.2 (-1) 5 [london]⟩

/-! ## C5 -/

/-- C5: with a positive limit `L`, every page has at most `L` records
(whatever the offset), and the pages at offsets `0, L, 2L, ...` —
enough of them to cover the working list — concatenate back to exactly
the working list, each record appearing once. -/
theorem c5_pages_partition_sequence (L : Int) (hL : 0 < L) :
    (∀ (O : Int) (data : List City), (applyPage O L data).length ≤ L.toNat) ∧
    (∀ (data : List City) (n : Nat), data.length ≤ n * L.toNat →
      ((List.range n).map (fun (k : Nat) => applyPage ((k : Int) * L) L data)).flatten =
        data) := by
  constructor
  · intro O data
    unfold applyPage pySlice sliceIdx
    simp only [List.length_take, List.length_drop]
    split_ifs <;> omega
  · intro data n hn
    obtain ⟨m, hm⟩ := Int.eq_ofNat_of_zero_le hL.le
    subst hm
    have hpage : ∀ k : Nat,
        applyPage ((k : Int) * (m : Int)) (m : Int) data =
          (data.drop (k * m)).take m := by
      intro k
      have hcast : ((k : Int) * (m : Int)).toNat = k * m := by
        rw [← Nat.cast_mul, Int.toNat_natCast]
      rw [show applyPage ((k : Int) * (m : Int)) (m : Int) data =
            pySlice ((k : Int) * (m : Int)) (m : Int) data from rfl,
        pySlice_of_nonneg _ _ _ (by positivity) (by positivity), hcast,
        Int.toNat_natCast]
    rw [List.map_congr_left (fun k _ => hpage k), flatten_chunks m n data]
    rw [Int.toNat_natCast] at hn
    exact List.take_of_length_le hn

/-- Witness for C5 with limit 2: a negative-offset page is within the
bound, and one page of size 2 reassembles the two-city list. -/
theorem c5_witness :
    (applyPage (-1) 2 [london, newYork]).length ≤ (2 : Int).toNat ∧
    ((List.range 1).map
        (fun (k : Nat) => applyPage ((k : Int) * 2) 2 [london, newYork])).flatten =
      [london, newYork] :=
  ⟨(c5_pages_partition_sequence 2 (by decide)).1 (-1) [london, newYork],
   (c5_pages_partition_sequence 2 (by decide)).2 [london, newYork] 1 (by decide)⟩

/-! ## Loader lemmas (C6, C7) -/

/-- A well-shaped row whose three numeric fields parse maps positionally
to the record built from columns 1, 4, 5, second-to-last, 14 and 8. -/
theorem parseRow_ok_of (row : List String) (la ln : ℚ) (p : Int)
    (hlen : 15 ≤ row.length)
    (h4 : pyFloat (row.getD 4 "") = some la)
    (h5 : pyFloat (row.getD 5 "") = some ln)
    (hp : (if row.getD 14 "" = "" then some 0 else pyInt (row.getD 14 "")) = some p) :
    parseRow row =
      .ok ⟨row.getD 1 "", la, ln, row.getD (row.length - 2) "", p, row.getD 8 ""⟩ := by
  unfold parseRow
  rw [if_neg (by omega), h4, h5, hp]

/-- A well-shaped row with a malformed numeric field makes `parseRow`
fail. -/
theorem parseRow_error_of_malformed {row : List String} (hlen : 15 ≤ row.length)
    (hbad : pyFloat (row.getD 4 "") = none ∨ pyFloat (row.getD 5 "") = none ∨
      (row.getD 14 "" ≠ "" ∧ pyInt (row.getD 14 "") = none)) :
    ∃ e : ParseError, parseRow row = .error e := by
  have hlt : ¬ row.length < 15 := by omega
  cases h4 : pyFloat (row.getD 4 "") with
  | none =>
    exact ⟨.badFloat row (row.getD 4 ""), by unfold parseRow; rw [if_neg hlt, h4]⟩
  | some la =>
    cases h5 : pyFloat (row.getD 5 "") with
    | none =>
      exact ⟨.badFloat row (row.getD 5 ""), by unfold parseRow; rw [if_neg hlt, h4, h5]⟩
    | some ln =>
      by_cases hps : row.getD 14 "" = ""
      · exfalso
        rcases hbad with h | h | h
        · rw [h4] at h; exact Option.noConfusion h
        · rw [h5] at h; exact Option.noConfusion h
        · exact h.1 hps
      · cases hpi : pyInt (row.getD 14 "") with
        | none =>
          refine ⟨.badInt row (row.getD 14 ""), ?_⟩
          unfold parseRow
          rw [if_neg hlt, h4, h5, if_neg hps, hpi]
        | some p =>
          exfalso
          rcases hbad with h | h | h
          · rw [h4] at h; exact Option.noConfusion h
          · rw [h5] at h; exact Option.noConfusion h
          · rw [hpi] at h; exact Option.noConfusion h.2

/-- When `parseRow` fails on a well-shaped row, the error names that very
row together with its malformed numeric literal. -/
theorem parseRow_error_shape {row : List String} {e : ParseError}
    (hlen : 15 ≤ row.length) (he : parseRow row = .error e) :
    ∃ fld : String,
      (e = .badFloat row fld ∧ pyFloat fld = none) ∨
      (e = .badInt row fld ∧ fld ≠ "" ∧ pyInt fld = none) := by
  have hlt : ¬ row.length < 15 := by omega
  cases h4 : pyFloat (row.getD 4 "") with
  | none =>
    have hrow : parseRow row = .error (.badFloat row (row.getD 4 "")) := by
      unfold parseRow; rw [if_neg hlt, h4]
    rw [hrow] at he
    cases he
    exact ⟨row.getD 4 "", Or.inl ⟨rfl, h4⟩⟩
  | some la =>
    cases h5 : pyFloat (row.getD 5 "") with
    | none =>
      have hrow : parseRow row = .error (.badFloat row (row.getD 5 "")) := by
        unfold parseRow; rw [if_neg hlt, h4, h5]
      rw [hrow] at he
      cases he
      exact ⟨row.getD 5 "", Or.inl ⟨rfl, h5⟩⟩
    | some ln =>
      by_cases hps : row.getD 14 "" = ""
      · have hrow : parseRow row = .ok
            ⟨row.getD 1 "", la, ln, row.getD (row.length - 2) "", 0, row.getD 8 ""⟩ :=
          parseRow_ok_of row la ln 0 hlen h4 h5 (by rw [if_pos hps])
        rw [hrow] at he
        exact Except.noConfusion he
      · cases hpi : pyInt (row.getD 14 "") with
        | none =>
          have hrow : parseRow row = .error (.badInt row (row.getD 14 "")) := by
            unfold parseRow; rw [if_neg hlt, h4, h5, if_neg hps, hpi]
          rw [hrow] at he
          cases he
          exact ⟨row.getD 14 "", Or.inr ⟨rfl, hps, hpi⟩⟩
        | some p =>
          have hrow : parseRow row = .ok
              ⟨row.getD 1 "", la, ln, row.getD (row.length - 2) "", p, row.getD 8 ""⟩ :=
            parseRow_ok_of row la ln p hlen h4 h5 (by rw [if_neg hps, hpi])
          rw [hrow] at he
          exact Except.noConfusion he

/-- If any row fails to parse, the whole load fails with the error of the
first failing row. -/
theorem loadCities_first_error (rows : List (List String))
    (hex : ∃ r ∈ rows, ∃ e, parseRow r = .error e) :
    ∃ (r' : List String) (e' : ParseError),
      r' ∈ rows ∧ parseRow r' = .error e' ∧ loadCities rows = .error e' := by
  induction rows with
  | nil =>
    obtain ⟨r, hr, _⟩ := hex
    cases hr
  | cons a rest ih =>
    obtain ⟨r, hr, e, he⟩ := hex
    cases ha : parseRow a with
    | error ea =>
      refine ⟨a, ea, List.mem_cons_self a rest, ha, ?_⟩
      unfold loadCities
      rw [List.mapM_cons, ha]
      rfl
    | ok c =>
      have hrest : ∃ r ∈ rest, ∃ e, parseRow r = .error e := by
        rcases List.mem_cons.mp hr with rfl | hmem
        · rw [ha] at he; exact Except.noConfusion he
        · exact ⟨r, hmem, e, he⟩
      obtain ⟨r', e', hr', he', hload⟩ := ih hrest
      refine ⟨r', e', List.mem_cons_of_mem a hr', he', ?_⟩
      unfold loadCities at hload ⊢
      rw [List.mapM_cons, ha, hload]
      rfl

/-! ## C6 -/

/-- C6: a well-formed row (at least the 15 needed columns, numeric fields
parseable) maps positionally to a CityRecord: name from column 1, lat
from column 4, lng from column 5, loc from column 8, pop from column 14
(0 when that field is the empty string), tz from the second-to-last
column. -/
theorem c6_positional_row_mapping (row : List String) (la ln : ℚ) (p : Int)
    (hlen : 15 ≤ row.length)
    (h4 : pyFloat (row.getD 4 "") = some la)
    (h5 : pyFloat (row.getD 5 "") = some ln)
    (hp : (if row.getD 14 "" = "" then some 0 else pyInt (row.getD 14 "")) = some p) :
    parseRow row =
      .ok ⟨row.getD 1 "", la, ln, row.getD (row.length - 2) "", p, row.getD 8 ""⟩ :=
  parseRow_ok_of row la ln p hlen h4 h5 hp

/-- Witness for C6: the London row parses to the London record, and the
same row with an empty population field parses with population 0. -/
theorem c6_witness :
    parseRow londonRow = .ok london ∧
    parseRow ["2643743", "London", "London", "", "51.50853", "-0.12574", "P", "PPLC",
        "GB", "", "ENG", "", "", "", "", "", "25", "Europe/London", "2011-03-03"] =
      .ok ⟨"London", mkRat 5150853 100000, mkRat (-12574) 100000, "Europe/London", 0, "GB"⟩ :=
  ⟨c6_positional_row_mapping londonRow (mkRat 5150853 100000) (mkRat (-12574) 100000)
      7556900 (by decide) (by decide) (by decide) (by decide),
   c6_positional_row_mapping
      ["2643743", "London", "London", "", "51.50853", "-0.12574", "P", "PPLC",
        "GB", "", "ENG", "", "", "", "", "", "25", "Europe/London", "2011-03-03"]
      (mkRat 5150853 100000) (mkRat (-12574) 100000) 0
      (by decide) (by decide) (by decide) (by decide)⟩

/-! ## C7 -/

/-- C7: an input containing a record with a malformed numeric field makes
the load fail with a parse error naming an offending record and its
malformed literal — no record list is produced — and every request whose
filters pass validation observes that same load failure, whatever its
parameters. -/
theorem c7_malformed_numeric_fails_load (rows : List (List String)) (row : List String)
    (hmem : row ∈ rows)
    (hshape : ∀ r ∈ rows, 15 ≤ r.length)
    (hbad : pyFloat (row.getD 4 "") = none ∨ pyFloat (row.getD 5 "") = none ∨
      (row.getD 14 "" ≠ "" ∧ pyInt (row.getD 14 "") = none)) :
    ∃ (bad : List String) (fld : String) (e : ParseError),
      bad ∈ rows ∧ loadCities rows = .error e ∧
      ((e = .badFloat bad fld ∧ pyFloat fld = none) ∨
        (e = .badInt bad fld ∧ fld ≠ "" ∧ pyInt fld = none)) ∧
      (∀ req : Req, hasFilter req = true → getCities rows req = .loadFailure e) := by
  have hex : ∃ r ∈ rows, ∃ e, parseRow r = .error e := by
    obtain ⟨e, he⟩ := parseRow_error_of_malformed (hshape row hmem) hbad
    exact ⟨row, hmem, e, he⟩
  obtain ⟨r', e', hr', he', hload⟩ := loadCities_first_error rows hex
  obtain ⟨fld, hshape'⟩ := parseRow_error_shape (hshape r' hr') he'
  refine ⟨r', fld, e', hr', hload, hshape', ?_⟩
  intro req hreq
  unfold getCities
  rw [hreq, hload]
  rfl

/-- Witness for C7: a two-row input whose second row has the unparseable
latitude "x9.9" fails the load with an error naming it, and a valid
request observes the failure. -/
theorem c7_witness :
    ∃ (bad : List String) (fld : String) (e : ParseError),
      bad ∈ [londonRow, ["1", "X", "X", "", "x9.9", "0.0", "P", "PPLC", "GB", "",
        "", "", "", "", "123", "", "25", "Zulu", "d"]] ∧
      loadCities [londonRow, ["1", "X", "X", "", "x9.9", "0.0", "P", "PPLC", "GB", "",
        "", "", "", "", "123", "", "25", "Zulu", "d"]] = .error e ∧
      ((e = .badFloat bad fld ∧ pyFloat fld = none) ∨
        (e = .badInt bad fld ∧ fld ≠ "" ∧ pyInt fld = none)) ∧
      (∀ req : Req, hasFilter req = true →
        getCities [londonRow, ["1", "X", "X", "", "x9.9", "0.0", "P", "PPLC", "GB", "",
          "", "", "", "", "123", "", "25", "Zulu", "d"]] req = .loadFailure e) :=
  c7_malformed_numeric_fails_load _
    ["1", "X", "X", "", "x9.9", "0.0", "P", "PPLC", "GB", "",
      "", "", "", "", "123", "", "25", "Zulu", "d"]
    (by decide) (by decide) (Or.inl (by decide))

/-! ## Sorting lemmas (C2) -/

/-- Each field comparison is total. -/
theorem keyLe_total (k : SortKey) (a b : City) :
    keyLe k a b = true ∨ keyLe k b a = true := by
  cases k <;> simp [keyLe] <;> exact le_total _ _

/-- Each field comparison is transitive. -/
theorem keyLe_trans (k : SortKey) (a b c : City)
    (h1 : keyLe k a b = true) (h2 : keyLe k b c = true) : keyLe k a c = true := by
  cases k <;> simp [keyLe] at h1 h2 ⊢ <;> exact le_trans h1 h2

/-! ## C2 -/

/-- C2: when a sort key is present, the pipeline's sort step is a stable
sort by that field's value — the output is a permutation of the input,
ordered descending exactly when `order = "desc"` and ascending for every
other value of `order`, with records of equal key kept in input order —
and over a tie-free record set, sorting by `pop` descending is the exact
reverse of sorting by `pop` ascending. -/
theorem c2_sort_stable_order_direction (k : SortKey) (ord : String) (data : List City) :
    (applySort (some k) ord data).Perm data ∧
    (ord = "desc" →
      (applySort (some k) ord data).Pairwise (fun a b => keyLe k b a = true)) ∧
    (ord ≠ "desc" →
      (applySort (some k) ord data).Pairwise (fun a b => keyLe k a b = true)) ∧
    (∀ a b : City, keyLe k a b = true → keyLe k b a = true →
      List.Sublist [a, b] data → List.Sublist [a, b] (applySort (some k) ord data)) ∧
    (data.Pairwise (fun a b => a.pop ≠ b.pop) →
      applySort (some SortKey.pop) "desc" data =
        (applySort (some SortKey.pop) "asc" data).reverse) := by
  haveI : IsTotal City (fun a b => keyLe k a b = true) := ⟨fun a b => keyLe_total k a b⟩
  haveI : IsTrans City (fun a b => keyLe k a b = true) :=
    ⟨fun a b c => keyLe_trans k a b c⟩
  haveI : IsTotal City (fun a b => keyLe k b a = true) := ⟨fun a b => keyLe_total k b a⟩
  haveI : IsTrans City (fun a b => keyLe k b a = true) :=
    ⟨fun a b c h1 h2 => keyLe_trans k c b a h2 h1⟩
  have hdesc : ∀ d : List City,
      pySortedBy k true d = d.insertionSort (fun a b => keyLe k b a = true) := fun d => rfl
  have hasc : ∀ d : List City,
      pySortedBy k false d = d.insertionSort (fun a b => keyLe k a b = true) := fun d => rfl
  refine ⟨?_, ?_, ?_, ?_, ?_⟩
  · show List.Perm (pySortedBy k (decide (ord = "desc")) data) data
    by_cases hd : ord = "desc"
    · rw [show decide (ord = "desc") = true by simp [hd], hdesc data]
      exact List.perm_insertionSort _ _
    · rw [show decide (ord = "desc") = false by simp [hd], hasc data]
      exact List.perm_insertionSort _ _
  · intro hd
    show List.Pairwise (fun a b => keyLe k b a = true)
      (pySortedBy k (decide (ord = "desc")) data)
    rw [show decide (ord = "desc") = true by simp [hd], hdesc data]
    exact List.sorted_insertionSort _ data
  · intro hd
    show List.Pairwise (fun a b => keyLe k a b = true)
      (pySortedBy k (decide (ord = "desc")) data)
    rw [show decide (ord = "desc") = false by simp [hd], hasc data]
    exact List.sorted_insertionSort _ data
  · intro a b hab hba hsub
    show List.Sublist [a, b] (pySortedBy k (decide (ord = "desc")) data)
    by_cases hd : ord = "desc"
    · rw [show decide (ord = "desc") = true by simp [hd], hdesc data]
      exact List.sublist_insertionSort (List.pairwise_pair.mpr hba) hsub
    · rw [show decide (ord = "desc") = false by simp [hd], hasc data]
      exact List.sublist_insertionSort (List.pairwise_pair.mpr hab) hsub
  · intro hne
    haveI : IsTotal City (fun a b => keyLe SortKey.pop a b = true) :=
      ⟨fun a b => keyLe_total SortKey.pop a b⟩
    haveI : IsTrans City (fun a b => keyLe SortKey.pop a b = true) :=
      ⟨fun a b c => keyLe_trans SortKey.pop a b c⟩
    haveI : IsTotal City (fun a b => keyLe SortKey.pop b a = true) :=
      ⟨fun a b => keyLe_total SortKey.pop b a⟩
    haveI : IsTrans City (fun a b => keyLe SortKey.pop b a = true) :=
      ⟨fun a b c h1 h2 => keyLe_trans SortKey.pop c b a h2 h1⟩
    haveI : IsAntisymm City (fun a b : City => a.pop < b.pop) :=
      ⟨fun a b h1 h2 => (lt_asymm h1 h2).elim⟩
    have hD : applySort (some SortKey.pop) "desc" data =
        data.insertionSort (fun a b => keyLe SortKey.pop b a = true) := rfl
    have hA : applySort (some SortKey.pop) "asc" data =
        data.insertionSort (fun a b => keyLe SortKey.pop a b = true) := rfl
    have hDp : List.Perm (data.insertionSort (fun a b => keyLe SortKey.pop b a = true)) data :=
      List.perm_insertionSort _ _
    have hAp : List.Perm (data.insertionSort (fun a b => keyLe SortKey.pop a b = true)) data :=
      List.perm_insertionSort _ _
    have hDs : (data.insertionSort (fun a b => keyLe SortKey.pop b a = true)).Pairwise
        (fun a b => keyLe SortKey.pop b a = true) := List.sorted_insertionSort _ data
    have hAs : (data.insertionSort (fun a b => keyLe SortKey.pop a b = true)).Pairwise
        (fun a b => keyLe SortKey.pop a b = true) := List.sorted_insertionSort _ data
    have hDle : (data.insertionSort (fun a b => keyLe SortKey.pop b a = true)).Pairwise
        (fun a b : City => b.pop ≤ a.pop) :=
      hDs.imp (fun h => by simpa [keyLe] using h)
    have hAle : (data.insertionSort (fun a b => keyLe SortKey.pop a b = true)).Pairwise
        (fun a b : City => a.pop ≤ b.pop) :=
      hAs.imp (fun h => by simpa [keyLe] using h)
    have hrevLe : ((data.insertionSort
        (fun a b => keyLe SortKey.pop b a = true)).reverse).Pairwise
        (fun a b : City => a.pop ≤ b.pop) :=
      List.pairwise_reverse.mpr hDle
    have hDrevp : List.Perm ((data.insertionSort
        (fun a b => keyLe SortKey.pop b a = true)).reverse) data :=
      (List.reverse_perm _).trans hDp
    have hneRev : ((data.insertionSort
        (fun a b => keyLe SortKey.pop b a = true)).reverse).Pairwise
        (fun a b : City => a.pop ≠ b.pop) :=
      (List.Perm.pairwise_iff (fun h => Ne.symm h) hDrevp).mpr hne
    have hneA : (data.insertionSort
        (fun a b => keyLe SortKey.pop a b = true)).Pairwise
        (fun a b : City => a.pop ≠ b.pop) :=
      (List.Perm.pairwise_iff (fun h => Ne.symm h) hAp).mpr hne
    have hrevLt : ((data.insertionSort
        (fun a b => keyLe SortKey.pop b a = true)).reverse).Pairwise
        (fun a b : City => a.pop < b.pop) :=
      (hrevLe.and hneRev).imp (fun h => lt_of_le_of_ne h.1 h.2)
    have hALt : (data.insertionSort
        (fun a b => keyLe SortKey.pop a b = true)).Pairwise
        (fun a b : City => a.pop < b.pop) :=
      (hAle.and hneA).imp (fun h => lt_of_le_of_ne h.1 h.2)
    have heq : (data.insertionSort
        (fun a b => keyLe SortKey.pop b a = true)).reverse =
        data.insertionSort (fun a b => keyLe SortKey.pop a b = true) :=
      List.eq_of_perm_of_sorted (hDrevp.trans hAp.symm) hrevLt hALt
    rw [hD, hA, ← heq, List.reverse_reverse]

/-- Witness for C2 on the two-city dataset (distinct populations):
descending sort by `pop` is a sorted permutation, ascending for
`order = "asc"`, equal records keep their order, and descending is the
reverse of ascending. -/
theorem c2_witness :
    List.Perm (applySort (some SortKey.pop) "desc" [london, newYork]) [london, newYork] ∧
    List.Pairwise (fun a b : City => keyLe SortKey.pop b a = true)
      (applySort (some SortKey.pop) "desc" [london, newYork]) ∧
    List.Pairwise (fun a b : City => keyLe SortKey.pop a b = true)
      (applySort (some SortKey.pop) "asc" [london, newYork]) ∧
    List.Sublist [london, london] (applySort (some SortKey.pop) "asc" [london, london]) ∧
    applySort (some SortKey.pop) "desc" [london, newYork] =
      (applySort (some SortKey.pop) "asc" [london, newYork]).reverse :=
  ⟨(c2_sort_stable_order_direction SortKey.pop "desc" [london, newYork]).1,
   (c2_sort_stable_order_direction SortKey.pop "desc" [london, newYork]).2.1 rfl,
   (c2_sort_stable_order_direction SortKey.pop "asc" [london, newYork]).2.2.1 (by decide),
   (c2_sort_stable_order_direction SortKey.pop "asc" [london, london]).2.2.2.1 london london
     (by decide) (by decide) (List.Sublist.refl _),
   (c2_sort_stable_order_direction SortKey.pop "desc" [london, newYork]).2.2.2.2 (by decide)⟩

/-! ## Rate limiter lemmas (C9) -/

/-- Running consecutive admission checks for one key, starting from `pre`
recorded timestamps that all stay inside the window of every upcoming
check: the i-th check is admitted exactly while fewer than 10 timestamps
are recorded, the key's final record keeps the first `10 - pre.length`
new timestamps, and no other key's record changes. -/
theorem rlCheckRun_saturates (key : String) :
    ∀ (ts : List Int) (st : RLState) (pre : List Int),
      st key = pre →
      (∀ u ∈ pre, ∀ t ∈ ts, t - u < 60) →
      ts.Pairwise (fun a b => b - a < 60) →
      (rlCheckRun st (ts.map (fun t => (key, t)))).1 =
        (List.range ts.length).map (fun i => decide (pre.length + i < 10)) ∧
      (rlCheckRun st (ts.map (fun t => (key, t)))).2 key =
        pre ++ ts.take (10 - pre.length) ∧
      (∀ k', k' ≠ key → (rlCheckRun st (ts.map (fun t => (key, t)))).2 k' = st k') := by
  intro ts
  induction ts with
  | nil =>
    intro st pre hpre hw hp
    refine ⟨rfl, ?_, fun k' hk => rfl⟩
    simp [rlCheckRun, hpre]
  | cons t rest ih =>
    intro st pre hpre hw hp
    have hrecent : (st key).filter (fun u => decide (t - u < 60)) = pre := by
      rw [hpre]
      apply List.filter_eq_self.mpr
      intro u hu
      exact decide_eq_true (hw u hu t (List.mem_cons_self t rest))
    have hrun : rlCheckRun st ((t :: rest).map (fun u => (key, u))) =
        ((rlCheck st key t).1 ::
          (rlCheckRun (rlCheck st key t).2 (rest.map (fun u => (key, u)))).1,
         (rlCheckRun (rlCheck st key t).2 (rest.map (fun u => (key, u)))).2) := rfl
    by_cases hlt : pre.length < 10
    · have hstep : rlCheck st key t =
          (true, fun k => if k = key then pre ++ [t] else st k) := by
        unfold rlCheck
        rw [hrecent, if_pos hlt]
      have hpre1 : (fun k => if k = key then pre ++ [t] else st k) key = pre ++ [t] := by
        simp
      have hw1 : ∀ u ∈ pre ++ [t], ∀ t' ∈ rest, t' - u < 60 := by
        intro u hu t' ht'
        rcases List.mem_append.mp hu with h | h
        · exact hw u h t' (List.mem_cons_of_mem t ht')
        · rcases List.mem_singleton.mp h with rfl
          exact (List.pairwise_cons.mp hp).1 t' ht'
      have hp1 : rest.Pairwise (fun a b => b - a < 60) := (List.pairwise_cons.mp hp).2
      obtain ⟨ho, hs, hk⟩ :=
        ih (fun k => if k = key then pre ++ [t] else st k) (pre ++ [t]) hpre1 hw1 hp1
      rw [hrun, hstep]
      refine ⟨?_, ?_, ?_⟩
      · show true :: _ = _
        rw [ho]
        rw [List.length_cons, List.range_succ_eq_map, List.map_cons, List.map_map]
        congr 1
        · exact (decide_eq_true (by omega)).symm
        · refine List.map_congr_left (fun i _ => ?_)
          show decide ((pre ++ [t]).length + i < 10) = decide (pre.length + (i + 1) < 10)
          exact decide_eq_decide.mpr (by simp; omega)
      · show (rlCheckRun _ _).2 key = _
        rw [hs]
        have h10 : 10 - pre.length = (10 - (pre ++ [t]).length) + 1 := by simp; omega
        rw [h10, List.take_succ_cons, List.append_assoc, List.singleton_append]
      · intro k' hk'
        show (rlCheckRun _ _).2 k' = st k'
        rw [hk k' hk']
        exact if_neg hk'
    · have hstep : rlCheck st key t =
          (false, fun k => if k = key then pre else st k) := by
        unfold rlCheck
        rw [hrecent, if_neg hlt]
      have hpre1 : (fun k => if k = key then pre else st k) key = pre := by simp
      have hw1 : ∀ u ∈ pre, ∀ t' ∈ rest, t' - u < 60 := by
        intro u hu t' ht'
        exact hw u hu t' (List.mem_cons_of_mem t ht')
      have hp1 : rest.Pairwise (fun a b => b - a < 60) := (List.pairwise_cons.mp hp).2
      obtain ⟨ho, hs, hk⟩ :=
        ih (fun k => if k = key then pre else st k) pre hpre1 hw1 hp1
      rw [hrun, hstep]
      refine ⟨?_, ?_, ?_⟩
      · show false :: _ = _
        rw [ho]
        rw [List.length_cons, List.range_succ_eq_map, List.map_cons, List.map_map]
        congr 1
        · exact (decide_eq_false (by omega)).symm
        · refine List.map_congr_left (fun i _ => ?_)
          show decide (pre.length + i < 10) = decide (pre.length + (i + 1) < 10)
          exact decide_eq_decide.mpr (by omega)
      · show (rlCheckRun _ _).2 key = _
        rw [hs]
        rw [show (10 : Nat) - pre.length = 0 by omega]
        simp
      · intro k' hk'
        show (rlCheckRun _ _).2 k' = st k'
        rw [hk k' hk']
        exact if_neg hk'

/-- A run of checks for one key never touches another key's record. -/
theorem rlCheckRun_other_keys (key k' : String) (hk : k' ≠ key) :
    ∀ (run : List Int) (st : RLState),
      (rlCheckRun st (run.map (fun t => (key, t)))).2 k' = st k' := by
  intro run
  induction run with
  | nil => intro st; rfl
  | cons t rest ih =>
    intro st
    show (rlCheckRun (rlCheck st key t).2 (rest.map (fun u => (key, u)))).2 k' = st k'
    rw [ih]
    unfold rlCheck
    dsimp only
    split_ifs <;> simp [hk]

/-! ## C9 -/

/-- C9: for a key with no recorded requests, 11 admission checks within a
60-second span rlCheck the first 10 and reject the 11th; a run of checks for
one key leaves every other key's record untouched; the first check for a
key with an empty record is always allowed, whatever the rest of the
state; and a rejected check is served as status 429 with body
"Too Many Requests". -/
theorem c9_rate_limit_10_per_minute :
    (∀ (st : RLState) (key : String) (ts : List Int),
      st key = [] →
      ts.Pairwise (fun a b => a ≤ b ∧ b - a < 60) →
      ts.length = 11 →
      (rlCheckRun st (ts.map (fun t => (key, t)))).1 =
        List.replicate 10 true ++ [false]) ∧
    (∀ (st : RLState) (key k' : String) (run : List Int), k' ≠ key →
      (rlCheckRun st (run.map (fun t => (key, t)))).2 k' = st k') ∧
    (∀ (st : RLState) (k' : String) (t : Int), st k' = [] →
      (rlCheck st k' t).1 = true) ∧
    (∀ (st : RLState) (key : String) (t : Int) (rows : List (List String)) (req : Req),
      (rlCheck st key t).1 = false →
      serve st key t rows req =
        (ServeResult.rateLimited 429 "Too Many Requests", (rlCheck st key t).2)) := by
  refine ⟨?_, ?_, ?_, ?_⟩
  · intro st key ts h0 hp hlen
    obtain ⟨ho, _, _⟩ :=
      rlCheckRun_saturates key ts st [] h0 (by intro u hu; cases hu)
        (hp.imp (fun h => h.2))
    rw [ho, hlen]
    decide
  · intro st key k' run hk
    exact rlCheckRun_other_keys key k' hk run st
  · intro st k' t h0
    unfold rlCheck
    rw [h0]
    rfl
  · intro st key t rows req h
    unfold serve
    dsimp only
    rw [h]
    rfl

/-- Witness for C9: from a fresh state, 11 one-second-spaced checks for
key "a" rlCheck 10 then reject; key "b" is untouched by the run and its
first check is allowed; a saturated key is answered 429. -/
theorem c9_witness :
    (rlCheckRun ((fun _ => []) : RLState)
        ([0, 1, 2, 3, 4, 5, 6, 7, 8, 9, 10].map (fun t => ("a", t)))).1 =
      List.replicate 10 true ++ [false] ∧
    (rlCheckRun ((fun _ => []) : RLState)
        ([0, 1, 2, 3, 4, 5, 6, 7, 8, 9, 10].map (fun t => ("a", t)))).2 "b" = [] ∧
    (rlCheck ((fun _ => []) : RLState) "b" 30).1 = true ∧
    serve ((fun k => if k = "a" then [0, 1, 2, 3, 4, 5, 6, 7, 8, 9] else []) : RLState)
        "a" 10 [] (Req.mk none (some "Europe/London") none 50 0 none "asc") =
      (ServeResult.rateLimited 429 "Too Many Requests",
        (rlCheck ((fun k => if k = "a" then [0, 1, 2, 3, 4, 5, 6, 7, 8, 9] else []) : RLState)
          "a" 10).2) :=
  ⟨c9_rate_limit_10_per_minute.1 (fun _ => []) "a" [0, 1, 2, 3, 4, 5, 6, 7, 8, 9, 10]
      rfl (by decide) rfl,
   c9_rate_limit_10_per_minute.2.1 (fun _ => []) "a" "b" [0, 1, 2, 3, 4, 5, 6, 7, 8, 9, 10]
      (by decide),
   c9_rate_limit_10_per_minute.2.2.1 (fun _ => []) "b" 30 rfl,
   c9_rate_limit_10_per_minute.2.2.2
      (fun k => if k = "a" then [0, 1, 2, 3, 4, 5, 6, 7, 8, 9] else []) "a" 10 []
      (Req.mk none (some "Europe/London") none 50 0 none "asc") (by decide)⟩
